import Mathlib

/-
Verification development for the Streamlit app in src/Visualize_Data.py.

The script is embedded shallowly: a pandas DataFrame becomes `Table`
(a typed header plus a list of rows of cells), the per-render pipeline
(Invoice-Date coercion and filtering, groupby-sum, sort_values) becomes
pure functions on `Table`, the `st.session_state.datasets` dict becomes
an association list threaded through `renderPass`, and each chart branch
becomes a function computing the branch outcome (rendered / warned /
raised / silently skipped).  Library calls (pd.to_datetime with
errors coerce, value_counts, groupby(...).sum(numeric_only=True),
sort_values, read_csv, to_csv) are modelled by executable Lean
functions that follow the documented behaviour the script relies on.
-/

namespace VisualizeData

/-- Storage kind of a column, mirroring the dtype classes the script
distinguishes with select_dtypes: number, object (text), datetime. -/
inductive Kind
  | num
  | str
  | date
  deriving DecidableEq, Repr

/-- One cell of a DataFrame: an integer, a text value, a datetime
(encoded as an integer key), or a missing value (NaN / NaT). -/
inductive Cell
  | num (v : Int)
  | str (s : String)
  | date (d : Int)
  | nan
  deriving DecidableEq, Repr

/-- Lexicographic comparison of character lists by code point; the basis
for ordering text cells. -/
def charsLE : List Char → List Char → Bool
  | [], _ => true
  | _ :: _, [] => false
  | a :: as, b :: bs =>
    if a.toNat < b.toNat then true
    else if b.toNat < a.toNat then false
    else charsLE as bs

/-- Lexicographic order on strings by code point. -/
def strLE (s t : String) : Bool := charsLE s.data t.data

/-- Rank of a cell constructor, used to make the cell order total across
kinds (a well-typed column only ever compares cells of one kind). -/
def kindRank : Cell → Nat
  | .num _ => 0
  | .str _ => 1
  | .date _ => 2
  | .nan => 3

/-- Total boolean order on cells: numbers by integer order, text
lexicographically, dates by their key; across kinds, by constructor
rank. -/
def cellLE (a b : Cell) : Bool :=
  match a, b with
  | .num x, .num y => decide (x ≤ y)
  | .str x, .str y => strLE x y
  | .date x, .date y => decide (x ≤ y)
  | .nan, .nan => true
  | _, _ => decide (kindRank a ≤ kindRank b)


/-- A DataFrame: named, kinded columns and a list of rows of cells. -/
structure Table where
  header : List (String × Kind)
  rows : List (List Cell)
  deriving DecidableEq, Repr

/-- Column names, as in dataset.columns.tolist() (line 47). -/
def Table.cols (t : Table) : List String := t.header.map Prod.fst

/-- Numeric columns, as in select_dtypes(include=number) (line 45). -/
def Table.numericCols (t : Table) : List String :=
  (t.header.filter (fun p => decide (p.2 = Kind.num))).map Prod.fst

/-- Categorical columns, as in select_dtypes(include=object) (line 46). -/
def Table.categoricalCols (t : Table) : List String :=
  (t.header.filter (fun p => decide (p.2 = Kind.str))).map Prod.fst

/-- Index of the first column named c; the length of the list when c is
absent (pandas label lookup, positionally). -/
def findIdx (c : String) : List String → Nat
  | [] => 0
  | n :: ns => if n = c then 0 else findIdx c ns + 1

def Table.colIdx (t : Table) (c : String) : Nat := findIdx c t.cols

/-- Cell of a row at a column position; missing positions read as NaN. -/
def cellAt (r : List Cell) (i : Nat) : Cell := r.getD i Cell.nan

/-- The values of column c, one per row (a pandas Series). -/
def Table.colValues (t : Table) (c : String) : List Cell :=
  t.rows.map (fun r => cellAt r (t.colIdx c))

/-- Kind recorded in the header for column c. -/
def Table.kindOf (t : Table) (c : String) : Kind :=
  (t.header.getD (t.colIdx c) (c, Kind.str)).2

/-- Apply f to the element at position i, leaving the rest unchanged. -/
def mapAt {α : Type} : Nat → (α → α) → List α → List α
  | 0, _, [] => []
  | 0, f, x :: xs => f x :: xs
  | _ + 1, _, [] => []
  | i + 1, f, x :: xs => x :: mapAt i f xs


/-- Split a character list on the dash character. -/
def splitDash : List Char → List (List Char)
  | [] => [[]]
  | c :: cs =>
    if c = '-' then [] :: splitDash cs
    else
      match splitDash cs with
      | [] => [[c]]
      | g :: gs => (c :: g) :: gs

def digitsValAux : List Char → Nat → Option Nat
  | [], acc => some acc
  | c :: cs, acc =>
    if c.isDigit then digitsValAux cs (acc * 10 + (c.toNat - 48)) else none

/-- Decimal value of a nonempty, all-digit character list. -/
def digitsVal : List Char → Option Nat
  | [] => none
  | c :: cs => digitsValAux (c :: cs) 0

/-- Best-effort parse of a date string in year-month-day form, to an
integer key that orders chronologically; none when unparseable.  Models
the parsing pd.to_datetime performs on text entries. -/
def parseDateStr (s : String) : Option Int :=
  match (splitDash s.data).map digitsVal with
  | [some y, some m, some d] =>
    if 1 ≤ m ∧ m ≤ 12 ∧ 1 ≤ d ∧ d ≤ 31 then
      some (Int.ofNat (y * 10000 + m * 100 + d))
    else none
  | _ => none

/-- Models pd.to_datetime(col, errors=coerce) on one cell: datetimes
pass through, numbers are read as timestamps, text is parsed best
effort, and anything unparseable becomes NaT (line 54). -/
def to_datetime_cell : Cell → Cell
  | .date d => .date d
  | .num v => .date v
  | .str s =>
    match parseDateStr s with
    | some d => .date d
    | none => .nan
  | .nan => .nan

/-- The column the script special-cases for date filtering (line 53). -/
def invoiceDate : String := "Invoice Date"

/-- Line 54: dataset[invoiceDate] = pd.to_datetime(dataset[invoiceDate],
errors=coerce).  Overwrites the column in place, changing its kind to
datetime and coercing each cell. -/
def coerceInvoiceDate (t : Table) : Table :=
  { header := mapAt (t.colIdx invoiceDate) (fun p => (p.1, Kind.date)) t.header,
    rows := t.rows.map (mapAt (t.colIdx invoiceDate) to_datetime_cell) }

/-- Line 55: dataset.dropna(subset=[invoiceDate]) - drop the rows whose
coerced date is NaT. -/
def dropnaInvoiceDate (t : Table) : Table :=
  { header := t.header,
    rows := t.rows.filter
      (fun r => decide (cellAt r (t.colIdx invoiceDate) ≠ Cell.nan)) }

/-- The date key held by a cell (0 for non-dates; only applied to date
cells). -/
def dateVal : Cell → Int
  | .date d => d
  | _ => 0

/-- Line 56: dataset[invoiceDate].min().date(). -/
def minDate (t : Table) : Int :=
  match (t.colValues invoiceDate).map dateVal with
  | [] => 0
  | x :: xs => xs.foldl min x

/-- Line 57: dataset[invoiceDate].max().date(). -/
def maxDate (t : Table) : Int :=
  match (t.colValues invoiceDate).map dateVal with
  | [] => 0
  | x :: xs => xs.foldl max x

/-- Lines 64-67: keep the rows whose Invoice Date lies in [lo, hi],
both bounds included. -/
def filterDateRange (lo hi : Int) (t : Table) : Table :=
  { header := t.header,
    rows := t.rows.filter (fun r =>
      match cellAt r (t.colIdx invoiceDate) with
      | .date d => decide (lo ≤ d) && decide (d ≤ hi)
      | _ => false) }

/-- Lines 53-67 as they act on the working copy: when an Invoice Date
column exists, coerce it, drop NaT rows, and filter by the selected
range (the slider defaults to the full min-max range when the user has
not narrowed it); otherwise the table passes through untouched. -/
def dateStage (sel : Option (Int × Int)) (t : Table) : Table :=
  if invoiceDate ∈ t.cols then
    let t1 := dropnaInvoiceDate (coerceInvoiceDate t)
    let r := sel.getD (minDate t1, maxDate t1)
    filterDateRange r.1 r.2 t1
  else t

/-- The cell order as a proposition, for the sorting routines. -/
def cellLEP (a b : Cell) : Prop := cellLE a b = true

instance : DecidableRel cellLEP := fun a b =>
  inferInstanceAs (Decidable (cellLE a b = true))

/-- Sort cells ascending, as pandas sorts group keys. -/
def sortCells (l : List Cell) : List Cell := List.insertionSort cellLEP l

/-- Integer value of a numeric cell (0 otherwise; the script only sums
cells of numeric columns). -/
def cellIntVal : Cell → Int
  | .num v => v
  | _ => 0

/-- Sum of numeric column c over the rows whose group-key column g
holds the key k. -/
def groupSum (t : Table) (g : String) (k : Cell) (c : String) : Int :=
  ((t.rows.filter (fun r => decide (cellAt r (t.colIdx g) = k))).map
    (fun r => cellIntVal (cellAt r (t.colIdx c)))).sum

/-- Line 72: dataset.groupby(group_col).sum(numeric_only=True)
.reset_index().  One output row per distinct key, keys ascending; the
key column comes back as the first column and every other numeric
column is summed per group; all other columns are dropped. -/
def groupbySum (t : Table) (g : String) : Table :=
  let keys := sortCells (t.colValues g).dedup
  let aggCols := t.numericCols.filter (fun c => decide (c ≠ g))
  { header := (g, t.kindOf g) :: aggCols.map (fun c => (c, Kind.num)),
    rows := keys.map (fun k =>
      k :: aggCols.map (fun c => Cell.num (groupSum t g k c))) }

/-- Lines 70-72: the grouping stage runs only when a group column other
than the None sentinel is chosen. -/
def groupStage (g : Option String) (t : Table) : Table :=
  match g with
  | none => t
  | some c => groupbySum t c

/-- Row order induced by the cell order at column position i. -/
def rowLEP (i : Nat) (a b : List Cell) : Prop :=
  cellLE (cellAt a i) (cellAt b i) = true

instance : (i : Nat) → DecidableRel (rowLEP i) := fun i a b =>
  inferInstanceAs (Decidable (cellLE (cellAt a i) (cellAt b i) = true))

/-- Line 77: dataset.sort_values(by=sort_col) - ascending sort of the
rows by the chosen column. -/
def sort_values (t : Table) (c : String) : Table :=
  { header := t.header,
    rows := List.insertionSort (rowLEP (t.colIdx c)) t.rows }

/-- Lines 75-77: the sorting stage runs only when a sort column other
than the None sentinel is chosen. -/
def sortStage (s : Option String) (t : Table) : Table :=
  match s with
  | none => t
  | some c => sort_values t c

/-- st.session_state.datasets: the filename-keyed dataset dict
(lines 14-15), as an insertion-ordered association list. -/
abbrev SessionState := List (String × Table)

/-- Dict lookup st.session_state.datasets[name]. -/
def lookupDataset : SessionState → String → Option Table
  | [], _ => none
  | (n, t) :: rest, name => if n = name then some t else lookupDataset rest name

/-- Dict assignment st.session_state.datasets[name] = df: replace the
entry when the key exists, append it otherwise (line 28). -/
def storeDataset : SessionState → String → Table → SessionState
  | [], name, df => [(name, df)]
  | (n, u) :: rest, name, df =>
    if n = name then (n, df) :: rest else (n, u) :: storeDataset rest name df

/-- The message the upload handler writes to the sidebar. -/
inductive SidebarMsg
  | loaded (fileName : String)
  | failed (err : String)
  deriving DecidableEq, Repr

/-- Lines 21-31: the upload handler.  Parsing (read_csv / read_excel)
may raise; its result arrives as an Except.  On success the parsed
frame is stored under the filename and a success message is shown; on
failure the exception is caught, an error message is shown, and the
store assignment is never reached. -/
def uploadFile (s : SessionState) (fileName : String)
    (parsed : Except String Table) : SessionState × SidebarMsg :=
  match parsed with
  | .ok df => (storeDataset s fileName df, .loaded fileName)
  | .error e => (s, .failed e)

/-- Line 19: the extensions the file uploader accepts. -/
def acceptedTypes : List String := ["csv", "xlsx"]

/-- Which parser the upload handler dispatches to. -/
inductive Decoder
  | csv
  | excel
  deriving DecidableEq, Repr

/-- file_name.endswith(".csv") on the character list. -/
def endsWithDotCsv (s : String) : Bool :=
  match s.data.reverse with
  | 'v' :: 's' :: 'c' :: '.' :: _ => true
  | _ => false

/-- Lines 24-27: names ending in .csv go to pd.read_csv, every other
accepted name goes to pd.read_excel. -/
def chooseDecoder (fileName : String) : Decoder :=
  if endsWithDotCsv fileName then Decoder.csv else Decoder.excel

/-- Lines 34-77: one render pass over the selected dataset.  The
snapshot is fetched from session state (line 37; no copy is taken), the
Invoice Date coercion of line 54 writes through to the stored snapshot,
and the dropna / range filter / group / sort steps rebind the working
copy only.  Returns the session state after the pass and the final
working table handed to the chart and export stages. -/
def renderPass (s : SessionState) (name : String) (sel : Option (Int × Int))
    (g srt : Option String) : SessionState × Table :=
  match lookupDataset s name with
  | none => (s, ⟨[], []⟩)
  | some dataset =>
    if invoiceDate ∈ dataset.cols then
      let coerced := coerceInvoiceDate dataset
      let s1 := storeDataset s name coerced
      let t1 := dropnaInvoiceDate coerced
      let r := sel.getD (minDate t1, maxDate t1)
      let t2 := filterDateRange r.1 r.2 t1
      (s1, sortStage srt (groupStage g t2))
    else
      (s, sortStage srt (groupStage g dataset))

/-- What a chart branch does on a render pass. -/
inductive RenderOutcome
  | rendered
  | warned (msg : String)
  | raised (err : String)
  | skipped
  deriving DecidableEq, Repr

/-- Lines 90-95: the Line Plot branch warns when no numeric column is
selected. -/
def linePlotBranch (selectedCols : List String) : RenderOutcome :=
  if selectedCols ≠ [] then .rendered
  else .warned "Select at least one numeric column."

/-- Descending-count order on counted values, as value_counts sorts. -/
def countGE (a b : Cell × Nat) : Prop := b.2 ≤ a.2

instance : DecidableRel countGE := fun a b =>
  inferInstanceAs (Decidable (b.2 ≤ a.2))

/-- Series.value_counts(): each distinct value with its multiplicity,
most frequent first. -/
def value_counts (l : List Cell) : List (Cell × Nat) :=
  List.insertionSort countGE (l.dedup.map (fun v => (v, l.count v)))

/-- Printed form of a cell, as str() renders it for labels and CSV. -/
def cellToString : Cell → String
  | .num v => toString v
  | .str s => s
  | .date d => toString d
  | .nan => ""

/-- .str.strip() on the character list: drop spaces at both ends. -/
def stripSpaces (cs : List Char) : List Char :=
  ((cs.dropWhile (fun c => decide (c = ' '))).reverse.dropWhile
    (fun c => decide (c = ' '))).reverse

/-- Lines 101-105: dataset[col].value_counts().head(10), labels cast to
text and stripped.  The data behind the bar chart. -/
def barChartData (t : Table) (col : String) : List (List Char × Nat) :=
  ((value_counts (t.colValues col)).take 10).map
    (fun p => (stripSpaces (cellToString p.1).data, p.2))

/-- Lines 111-114: the Histogram branch has no guard: with no numeric
column, st.selectbox returns None and dataset[None] raises; otherwise a
column is selected and the plot renders. -/
def histogramBranch (numericCols : List String) : RenderOutcome :=
  match numericCols with
  | [] => .raised "KeyError: None"
  | _ :: _ => .rendered

/-- Lines 117-120: the Box Plot branch, identical guard situation to
the histogram. -/
def boxPlotBranch (numericCols : List String) : RenderOutcome :=
  match numericCols with
  | [] => .raised "KeyError: None"
  | _ :: _ => .rendered

/-- Lines 123-126: the Heatmap branch computes corr() over the numeric
columns with no guard; with none, seaborn raises on the empty matrix. -/
def heatmapBranch (numericCols : List String) : RenderOutcome :=
  if numericCols = [] then
    .raised "ValueError: zero-size array to reduction operation"
  else .rendered

/-- Line 134: dataset.groupby(cat)[num].sum() - one slice per distinct
category value, keys ascending, no cap on the number of slices. -/
def pieChartData (t : Table) (catCol numCol : String) : List (Cell × Int) :=
  (sortCells (t.colValues catCol).dedup).map
    (fun k => (k, groupSum t catCol k numCol))

/-- Lines 129-145: the Pie Chart branch warns when the snapshot has no
categorical or no numeric column; with both present it renders when the
chosen columns survive into the working table and silently skips
otherwise. -/
def pieChartBranch (t : Table) (categoricalCols numericCols : List String)
    (catChoice numChoice : String) : RenderOutcome :=
  if categoricalCols ≠ [] ∧ numericCols ≠ [] then
    if catChoice ∈ t.cols ∧ numChoice ∈ t.cols then .rendered else .skipped
  else .warned "Need both categorical and numeric columns."

/-- A CSV file: a header line of column names and the data records. -/
structure Csv where
  header : List String
  records : List (List String)
  deriving DecidableEq, Repr

/-- Integer parse of a field, on the character list (optionally
dash-signed digits). -/
def strToInt? (s : String) : Option Int :=
  match s.data with
  | '-' :: rest => (digitsVal rest).map (fun n => -(n : Int))
  | cs => (digitsVal cs).map Int.ofNat

/-- The strings of column j, one per record. -/
def columnStrings (f : Csv) (j : Nat) : List String :=
  f.records.map (fun rec => rec.getD j "")

/-- Models read_csv dtype inference for one column: numeric when every
field parses as an integer (and the column is nonempty), object
otherwise. -/
def inferKind (ss : List String) : Kind :=
  if ss ≠ [] ∧ ss.all (fun s => (strToInt? s).isSome) then Kind.num
  else Kind.str

/-- One field decoded under the column kind. -/
def parseCell (k : Kind) (s : String) : Cell :=
  match k with
  | Kind.num => Cell.num ((strToInt? s).getD 0)
  | _ => Cell.str s

/-- Line 25: pd.read_csv - the header names the columns, each column
gets an inferred kind, each record becomes a row of decoded cells. -/
def read_csv (f : Csv) : Table :=
  let kinds := (List.range f.header.length).map
    (fun j => inferKind (columnStrings f j))
  { header := f.header.zip kinds,
    rows := f.records.map (fun rec =>
      (List.range f.header.length).map
        (fun j => parseCell (kinds.getD j Kind.str) (rec.getD j ""))) }

/-- Line 167: dataset.to_csv(index=False) - the column names as the
header line and one record per row. -/
def to_csv (t : Table) : Csv :=
  { header := t.cols, records := t.rows.map (fun r => r.map cellToString) }

/- ## Concrete sample inputs used by witnesses and counterexamples -/

/-- A dataset with a textual Invoice Date column, one parseable and one
unparseable entry. -/
def sampleDateTable : Table :=
  { header := [("Invoice Date", Kind.str), ("Sales", Kind.num)],
    rows := [[Cell.str "2020-01-02", Cell.num 5],
             [Cell.str "bad", Cell.num 7]] }

/-- A session holding sampleDateTable under one filename. -/
def sampleState : SessionState := [("d.csv", sampleDateTable)]

/-- A categorical column with eleven distinct values. -/
def elevenCatTable : Table :=
  { header := [("Region", Kind.str), ("Sales", Kind.num)],
    rows := [[Cell.str "a", Cell.num 1], [Cell.str "b", Cell.num 1],
             [Cell.str "c", Cell.num 1], [Cell.str "d", Cell.num 1],
             [Cell.str "e", Cell.num 1], [Cell.str "f", Cell.num 1],
             [Cell.str "g", Cell.num 1], [Cell.str "h", Cell.num 1],
             [Cell.str "i", Cell.num 1], [Cell.str "j", Cell.num 1],
             [Cell.str "k", Cell.num 1]] }

/-- A table with no numeric column. -/
def noNumTable : Table :=
  { header := [("Name", Kind.str)], rows := [[Cell.str "x"]] }

/-- The Region/Sales example CSV of the specification. -/
def sampleCsv : Csv :=
  { header := ["Region", "Sales"],
    records := [["A", "10"], ["B", "20"], ["A", "5"]] }

/-- The example CSV loaded: Region is textual, Sales numeric. -/
def sampleRS : Table := read_csv sampleCsv

/-- A two-row table of pre-coerced dates, for the range-filter bounds. -/
def sampleDatesOnly : Table :=
  { header := [("Invoice Date", Kind.date)],
    rows := [[Cell.date 0], [Cell.date 5]] }

/- ## Helper lemmas -/

theorem charsLE_total : ∀ as bs, charsLE as bs = true ∨ charsLE bs as = true
  | [], _ => Or.inl rfl
  | _ :: _, [] => Or.inr rfl
  | a :: as, b :: bs => by
    rcases Nat.lt_trichotomy a.toNat b.toNat with h | h | h
    · left; simp [charsLE, h]
    · have h1 : ¬ a.toNat < b.toNat := by omega
      have h2 : ¬ b.toNat < a.toNat := by omega
      have ih := charsLE_total as bs
      simpa [charsLE, h1, h2] using ih
    · right; simp [charsLE, h]

theorem charsLE_trans :
    ∀ as bs cs, charsLE as bs = true → charsLE bs cs = true → charsLE as cs = true
  | [], _, _ => by intro _ _; rfl
  | _ :: _, [], _ => by intro h _; simp [charsLE] at h
  | _ :: _, _ :: _, [] => by intro _ h; simp [charsLE] at h
  | a :: as, b :: bs, c :: cs => by
    intro h1 h2
    by_cases hab : a.toNat < b.toNat <;> by_cases hba : b.toNat < a.toNat <;>
      by_cases hbc : b.toNat < c.toNat <;> by_cases hcb : c.toNat < b.toNat <;>
      simp_all [charsLE] <;>
      first
        | omega
        | (constructor <;> omega)
        | exact Or.inr ⟨by omega, charsLE_trans as bs cs h1 h2⟩

theorem strLE_total (s t : String) : strLE s t = true ∨ strLE t s = true :=
  charsLE_total s.data t.data

theorem strLE_trans (s t u : String) :
    strLE s t = true → strLE t u = true → strLE s u = true :=
  charsLE_trans s.data t.data u.data

theorem cellLE_total (a b : Cell) : cellLE a b = true ∨ cellLE b a = true := by
  cases a <;> cases b <;>
    simp [cellLE, kindRank] <;>
    first
      | omega
      | exact strLE_total _ _

theorem cellLE_trans (a b c : Cell) :
    cellLE a b = true → cellLE b c = true → cellLE a c = true := by
  cases a <;> cases b <;> cases c <;>
    simp [cellLE, kindRank] <;>
    first
      | omega
      | (intro h1 h2; exact strLE_trans _ _ _ h1 h2)

theorem length_mapAt {α : Type} (i : Nat) (f : α → α) (l : List α) :
    (mapAt i f l).length = l.length := by
  induction l generalizing i with
  | nil => cases i <;> rfl
  | cons x xs ih => cases i <;> simp [mapAt, ih]

theorem getD_mapAt_ne {α : Type} (d : α) (i j : Nat) (f : α → α) (l : List α)
    (h : j ≠ i) : (mapAt i f l).getD j d = l.getD j d := by
  induction l generalizing i j with
  | nil => cases i <;> rfl
  | cons x xs ih =>
    cases i with
    | zero =>
      cases j with
      | zero => exact absurd rfl h
      | succ j => rfl
    | succ i =>
      cases j with
      | zero => rfl
      | succ j => simpa [mapAt] using ih i j (by omega)

theorem map_fst_mapAt (i : Nat) (g : Kind) :
    ∀ l : List (String × Kind),
    (mapAt i (fun p => (p.1, g)) l).map Prod.fst = l.map Prod.fst := by
  induction i with
  | zero => intro l; cases l <;> simp [mapAt]
  | succ i ih => intro l; cases l <;> simp [mapAt, ih]

theorem findIdx_lt_length {c : String} : ∀ {l : List String}, c ∈ l →
    findIdx c l < l.length
  | [], h => nomatch h
  | n :: ns, h => by
    by_cases hn : n = c
    · simp [findIdx, hn]
    · rcases List.mem_cons.mp h with he | hm
      · exact absurd he.symm hn
      · have := findIdx_lt_length hm
        simp only [findIdx, hn, if_false, List.length_cons]
        omega

theorem findIdx_of_not_mem {c : String} : ∀ {l : List String}, c ∉ l →
    findIdx c l = l.length
  | [], _ => rfl
  | n :: ns, h => by
    have hn : n ≠ c := fun he => h (he ▸ List.mem_cons_self n ns)
    have hns : c ∉ ns := fun hm => h (List.mem_cons_of_mem n hm)
    simp [findIdx, hn, findIdx_of_not_mem hns]

theorem getD_findIdx {c : String} (d : String) : ∀ {l : List String}, c ∈ l →
    l.getD (findIdx c l) d = c
  | [], h => nomatch h
  | n :: ns, h => by
    by_cases hn : n = c
    · simp [findIdx, hn]
    · rcases List.mem_cons.mp h with he | hm
      · exact absurd he.symm hn
      · simpa [findIdx, hn] using getD_findIdx d hm

theorem findIdx_ne_of_ne {c d : String} (l : List String) (hcd : c ≠ d)
    (hd : d ∈ l) : findIdx c l ≠ findIdx d l := by
  by_cases hcm : c ∈ l
  · intro he
    have h1 : l.getD (findIdx c l) "" = c := getD_findIdx "" hcm
    have h2 : l.getD (findIdx d l) "" = d := getD_findIdx "" hd
    rw [he, h2] at h1
    exact hcd h1.symm
  · intro he
    have h1 : findIdx c l = l.length := findIdx_of_not_mem hcm
    have h2 : findIdx d l < l.length := findIdx_lt_length hd
    omega

theorem cols_coerceInvoiceDate (t : Table) :
    (coerceInvoiceDate t).cols = t.cols := by
  simp [coerceInvoiceDate, Table.cols, map_fst_mapAt]

theorem colIdx_coerceInvoiceDate (t : Table) (c : String) :
    (coerceInvoiceDate t).colIdx c = t.colIdx c := by
  simp [Table.colIdx, cols_coerceInvoiceDate]

theorem colIdx_ne_of_ne (t : Table) (c : String) (hc : c ≠ invoiceDate)
    (hmem : invoiceDate ∈ t.cols) : t.colIdx c ≠ t.colIdx invoiceDate :=
  findIdx_ne_of_ne t.cols hc hmem

theorem colValues_coerceInvoiceDate (t : Table) (c : String)
    (hc : c ≠ invoiceDate) (hmem : invoiceDate ∈ t.cols) :
    (coerceInvoiceDate t).colValues c = t.colValues c := by
  have hi : t.colIdx c ≠ t.colIdx invoiceDate := colIdx_ne_of_ne t c hc hmem
  show (coerceInvoiceDate t).rows.map
      (fun r => cellAt r ((coerceInvoiceDate t).colIdx c)) =
    t.rows.map (fun r => cellAt r (t.colIdx c))
  rw [colIdx_coerceInvoiceDate]
  show (t.rows.map (mapAt (t.colIdx invoiceDate) to_datetime_cell)).map
      (fun r => cellAt r (t.colIdx c)) =
    t.rows.map (fun r => cellAt r (t.colIdx c))
  rw [List.map_map]
  refine List.map_congr_left ?_
  intro r _
  show cellAt (mapAt (t.colIdx invoiceDate) to_datetime_cell r) (t.colIdx c) =
    cellAt r (t.colIdx c)
  exact getD_mapAt_ne Cell.nan (t.colIdx invoiceDate) (t.colIdx c)
    to_datetime_cell r hi

theorem rows_length_coerceInvoiceDate (t : Table) :
    (coerceInvoiceDate t).rows.length = t.rows.length := by
  simp [coerceInvoiceDate]

theorem datePred_eq_true_iff (lo hi : Int) (r : List Cell) (i : Nat) :
    ((match cellAt r i with
      | Cell.date d => decide (lo ≤ d) && decide (d ≤ hi)
      | _ => false) = true) ↔
    ∃ d, cellAt r i = Cell.date d ∧ lo ≤ d ∧ d ≤ hi := by
  cases h : cellAt r i <;> simp [h]

theorem cols_read_csv (f : Csv) : (read_csv f).cols = f.header := by
  have hlen : ((List.range f.header.length).map
      (fun j => inferKind (columnStrings f j))).length = f.header.length := by
    simp
  simp only [read_csv, Table.cols]
  exact List.map_fst_zip _ _ (le_of_eq hlen.symm)

/- ## Claim theorems -/

/-- C2 (counterexample): on a column with eleven distinct values the
pie chart data has eleven slices, so the claim that both the bar chart
and the pie chart display at most 10 categories is false. -/
theorem pieChart_eleven_slices :
    ¬ ((pieChartData elevenCatTable "Region" "Sales").length ≤ 10) := by
  decide

/-- C2 (amended): the bar chart displays at most 10 categories (the ten
most frequent values, the rest omitted), but the pie chart has no cap:
it displays exactly one slice per distinct value of the chosen
categorical column. -/
theorem chart_category_counts (t : Table) (col catCol numCol : String) :
    (barChartData t col).length ≤ 10 ∧
    (pieChartData t catCol numCol).length =
      (t.colValues catCol).dedup.length := by
  constructor
  · have h : (barChartData t col).length =
        min 10 (value_counts (t.colValues col)).length := by
      simp [barChartData]
    omega
  · simp only [pieChartData, sortCells, List.length_map]
    exact (List.perm_insertionSort cellLEP _).length_eq

/-- C3: grouping produces one row per distinct value of the group
column G, in which every numeric column other than G is summed per
group, and the resulting columns are exactly G followed by those
numeric columns - every non-numeric column other than G is dropped. -/
theorem groupbySum_shape (t : Table) (g : String) :
    (groupbySum t g).rows.length = (t.colValues g).dedup.length ∧
    (groupbySum t g).cols =
      g :: t.numericCols.filter (fun c => decide (c ≠ g)) ∧
    ∀ k ∈ (t.colValues g).dedup,
      (k :: (t.numericCols.filter (fun c => decide (c ≠ g))).map
        (fun c => Cell.num (groupSum t g k c))) ∈ (groupbySum t g).rows := by
  refine ⟨?_, ?_, ?_⟩
  · simp only [groupbySum, sortCells, List.length_map]
    exact (List.perm_insertionSort cellLEP _).length_eq
  · simp [groupbySum, Table.cols, List.map_map, Function.comp_def]
  · intro k hk
    have hk2 : k ∈ sortCells (t.colValues g).dedup :=
      (List.perm_insertionSort cellLEP _).mem_iff.mpr hk
    exact List.mem_map_of_mem _ hk2

/-- C3 (witness): on the Region/Sales example the grouped table has one
row per distinct region and contains the summed row for region A. -/
theorem groupbySum_shape_example :
    (groupbySum sampleRS "Region").rows.length = 2 ∧
    ((Cell.str "A") :: (sampleRS.numericCols.filter
        (fun c => decide (c ≠ "Region"))).map
      (fun c => Cell.num (groupSum sampleRS "Region" (Cell.str "A") c))) ∈
      (groupbySum sampleRS "Region").rows :=
  ⟨(groupbySum_shape sampleRS "Region").1.trans (by decide),
   (groupbySum_shape sampleRS "Region").2.2 (Cell.str "A") (by decide)⟩

/-- C4: a failed upload is caught and surfaced as an error message, and
the session's datasets map is left unchanged, so every previously
loaded dataset is still selectable under its name. -/
theorem uploadFile_failure_preserves (s : SessionState) (fileName e : String) :
    (uploadFile s fileName (Except.error e)).1 = s ∧
    (uploadFile s fileName (Except.error e)).2 = SidebarMsg.failed e ∧
    ∀ n, lookupDataset (uploadFile s fileName (Except.error e)).1 n =
      lookupDataset s n :=
  ⟨rfl, rfl, fun _ => rfl⟩

/-- C6 (counterexample): the uploader accepts only csv and xlsx; the
claimed third type xls is not among the accepted types. -/
theorem xls_not_accepted : "xls" ∉ acceptedTypes := by decide

/-- C6 (amended): the upload control accepts exactly the two file types
csv and xlsx, and the decoder is chosen purely by filename extension: a
name ending in .csv is parsed as CSV and any other name is parsed as a
spreadsheet. -/
theorem upload_types_and_dispatch (name : String) :
    acceptedTypes = ["csv", "xlsx"] ∧
    (chooseDecoder name = Decoder.csv ↔ endsWithDotCsv name = true) ∧
    (chooseDecoder name = Decoder.excel ↔ endsWithDotCsv name = false) := by
  refine ⟨rfl, ?_, ?_⟩ <;>
    unfold chooseDecoder <;>
    cases h : endsWithDotCsv name <;> simp [h]

/-- C5 (counterexample): on a table with no numeric column the
Histogram and Heatmap branches raise instead of showing a warning, so
the claim that every degenerate chart state warns and skips is false. -/
theorem histogram_no_guard :
    histogramBranch noNumTable.numericCols = RenderOutcome.raised "KeyError: None" ∧
    heatmapBranch noNumTable.numericCols =
      RenderOutcome.raised "ValueError: zero-size array to reduction operation" := by
  decide

/-- C5 (amended): only the Line Plot and Pie Chart branches guard their
degenerate states with a warning (empty selection, respectively missing
categorical or numeric columns); the Histogram, Box Plot and Heatmap
branches have no guard and raise when there is no numeric column. -/
theorem degenerate_chart_outcomes (t : Table)
    (numericCols categoricalCols selectedCols : List String)
    (catChoice numChoice : String) :
    (numericCols = [] →
      histogramBranch numericCols = RenderOutcome.raised "KeyError: None" ∧
      boxPlotBranch numericCols = RenderOutcome.raised "KeyError: None" ∧
      heatmapBranch numericCols =
        RenderOutcome.raised "ValueError: zero-size array to reduction operation") ∧
    (categoricalCols = [] ∨ numericCols = [] →
      pieChartBranch t categoricalCols numericCols catChoice numChoice =
        RenderOutcome.warned "Need both categorical and numeric columns.") ∧
    (selectedCols = [] →
      linePlotBranch selectedCols =
        RenderOutcome.warned "Select at least one numeric column.") := by
  refine ⟨?_, ?_, ?_⟩
  · rintro rfl
    exact ⟨rfl, rfl, rfl⟩
  · intro h
    have hcond : ¬ (categoricalCols ≠ [] ∧ numericCols ≠ []) := by
      rcases h with h | h <;> simp [h]
    simp [pieChartBranch, hcond]
  · rintro rfl
    simp [linePlotBranch]

/-- C5 (witness): the amended statement at a concrete degenerate
table. -/
theorem degenerate_chart_outcomes_example :
    histogramBranch noNumTable.numericCols = RenderOutcome.raised "KeyError: None" ∧
    pieChartBranch noNumTable noNumTable.categoricalCols noNumTable.numericCols
        "Name" "Name" =
      RenderOutcome.warned "Need both categorical and numeric columns." :=
  ⟨((degenerate_chart_outcomes noNumTable noNumTable.numericCols
      noNumTable.categoricalCols [] "Name" "Name").1 (by decide)).1,
   (degenerate_chart_outcomes noNumTable noNumTable.numericCols
      noNumTable.categoricalCols [] "Name" "Name").2.1 (Or.inr (by decide))⟩

/-- C7: the date-range filter keeps exactly the rows whose Invoice Date
lies inside [lo, hi], and it is inclusive at both ends: a row dated
exactly lo or exactly hi is retained. -/
theorem filterDateRange_inclusive (lo hi : Int) (t : Table) (r : List Cell)
    (hle : lo ≤ hi) :
    (r ∈ (filterDateRange lo hi t).rows ↔
      r ∈ t.rows ∧ ∃ d, cellAt r (t.colIdx invoiceDate) = Cell.date d ∧
        lo ≤ d ∧ d ≤ hi) ∧
    (r ∈ t.rows → cellAt r (t.colIdx invoiceDate) = Cell.date lo →
      r ∈ (filterDateRange lo hi t).rows) ∧
    (r ∈ t.rows → cellAt r (t.colIdx invoiceDate) = Cell.date hi →
      r ∈ (filterDateRange lo hi t).rows) := by
  have hmem : r ∈ (filterDateRange lo hi t).rows ↔
      r ∈ t.rows ∧ ∃ d, cellAt r (t.colIdx invoiceDate) = Cell.date d ∧
        lo ≤ d ∧ d ≤ hi := by
    rw [show (filterDateRange lo hi t).rows = t.rows.filter (fun r =>
        match cellAt r (t.colIdx invoiceDate) with
        | Cell.date d => decide (lo ≤ d) && decide (d ≤ hi)
        | _ => false) from rfl, List.mem_filter]
    exact and_congr_right fun _ => datePred_eq_true_iff lo hi r _
  refine ⟨hmem, ?_, ?_⟩
  · intro hr hcell
    exact hmem.mpr ⟨hr, lo, hcell, le_refl lo, hle⟩
  · intro hr hcell
    exact hmem.mpr ⟨hr, hi, hcell, hle, le_refl hi⟩

/-- C7 (witness): with bounds 0 and 5, both boundary rows of the sample
date table pass the filter. -/
theorem filterDateRange_inclusive_example :
    [Cell.date 0] ∈ (filterDateRange 0 5 sampleDatesOnly).rows ∧
    [Cell.date 5] ∈ (filterDateRange 0 5 sampleDatesOnly).rows :=
  ⟨(filterDateRange_inclusive 0 5 sampleDatesOnly [Cell.date 0]
      (by decide)).2.1 (by decide) (by decide),
   (filterDateRange_inclusive 0 5 sampleDatesOnly [Cell.date 5]
      (by decide)).2.2 (by decide) (by decide)⟩

/-- C10: sorting by a chosen column only reorders the rows (the result
is a permutation of the input rows, cell values unchanged, header
unchanged), and the chosen column's values are in non-decreasing order
in the result. -/
theorem sort_values_spec (t : Table) (c : String) :
    (sort_values t c).header = t.header ∧
    (sort_values t c).rows.Perm t.rows ∧
    List.Pairwise (fun a b => cellLE a b = true)
      ((sort_values t c).rows.map (fun r => cellAt r (t.colIdx c))) := by
  refine ⟨rfl, List.perm_insertionSort _ _, ?_⟩
  haveI : IsTotal (List Cell) (rowLEP (t.colIdx c)) :=
    ⟨fun a b => cellLE_total (cellAt a (t.colIdx c)) (cellAt b (t.colIdx c))⟩
  haveI : IsTrans (List Cell) (rowLEP (t.colIdx c)) :=
    ⟨fun a b d => cellLE_trans (cellAt a (t.colIdx c))
      (cellAt b (t.colIdx c)) (cellAt d (t.colIdx c))⟩
  have hs : List.Sorted (rowLEP (t.colIdx c))
      (List.insertionSort (rowLEP (t.colIdx c)) t.rows) :=
    List.sorted_insertionSort _ _
  exact List.pairwise_map.mpr hs

/-- C1 (counterexample): a render pass over a dataset with a textual
Invoice Date column changes the snapshot stored in session state (the
coercion of line 54 writes through the shared reference), so the claim
that the stored snapshot is left unchanged is false. -/
theorem renderPass_mutates_snapshot :
    (renderPass sampleState "d.csv" none none none).1 ≠ sampleState := by
  decide

/-- C1 (amended): the row-level stages (dropna, range filter, grouping,
sorting) only derive transient working copies and a pass over a table
without an Invoice Date column leaves session state unchanged; but when
the selected snapshot has an Invoice Date column, the date-filter stage
overwrites that column of the stored snapshot with its coerced datetime
values - row count and all other columns of the snapshot are
unchanged. -/
theorem renderPass_session_effect (s : SessionState) (name : String)
    (t0 : Table) (sel : Option (Int × Int)) (g srt : Option String)
    (h : lookupDataset s name = some t0) :
    (invoiceDate ∉ t0.cols → (renderPass s name sel g srt).1 = s) ∧
    (invoiceDate ∈ t0.cols →
      (renderPass s name sel g srt).1 =
        storeDataset s name (coerceInvoiceDate t0) ∧
      (coerceInvoiceDate t0).rows.length = t0.rows.length ∧
      (coerceInvoiceDate t0).cols = t0.cols ∧
      ∀ c, c ≠ invoiceDate →
        (coerceInvoiceDate t0).colValues c = t0.colValues c) := by
  constructor
  · intro hni
    simp [renderPass, h, hni]
  · intro hmem
    refine ⟨?_, rows_length_coerceInvoiceDate t0, cols_coerceInvoiceDate t0,
      fun c hc => colValues_coerceInvoiceDate t0 c hc hmem⟩
    simp [renderPass, h, hmem]

/-- C1 (witness): the amended statement at the sample session. -/
theorem renderPass_session_effect_example :
    (renderPass sampleState "d.csv" none none none).1 =
      storeDataset sampleState "d.csv" (coerceInvoiceDate sampleDateTable) ∧
    (coerceInvoiceDate sampleDateTable).colValues "Sales" =
      sampleDateTable.colValues "Sales" := by
  have h := renderPass_session_effect sampleState "d.csv" sampleDateTable
    none none none (by decide)
  exact ⟨(h.2 (by decide)).1, (h.2 (by decide)).2.2.2 "Sales" (by decide)⟩

/-- C9: the render pipeline applies its stages in the fixed order
date-filter, then group, then sort, each consuming the previous
stage's output; when both a group column and a sort column are chosen,
the sort acts on the grouped result. -/
theorem renderPass_stage_order (s : SessionState) (name : String) (t0 : Table)
    (sel : Option (Int × Int)) (g srt : Option String) (gc sc : String)
    (h : lookupDataset s name = some t0) :
    (renderPass s name sel g srt).2 =
      sortStage srt (groupStage g (dateStage sel t0)) ∧
    (renderPass s name sel (some gc) (some sc)).2 =
      sort_values (groupbySum (dateStage sel t0) gc) sc := by
  by_cases hmem : invoiceDate ∈ t0.cols <;>
    simp [renderPass, h, dateStage, hmem, groupStage, sortStage]

/-- C9 (witness): the stage order at the sample session. -/
theorem renderPass_stage_order_example :
    (renderPass sampleState "d.csv" none none none).2 =
      sortStage none (groupStage none (dateStage none sampleDateTable)) :=
  (renderPass_stage_order sampleState "d.csv" sampleDateTable none none none
    "Region" "Sales" (by decide)).1

/-- C8: loading a CSV without an Invoice Date column and exporting it
as CSV with no grouping and no sorting chosen yields exactly the input
row count and the identical column set. -/
theorem load_export_preserves (f : Csv) (h : invoiceDate ∉ f.header) :
    (to_csv ((renderPass (storeDataset [] "data.csv" (read_csv f)) "data.csv"
        none none none).2)).records.length = f.records.length ∧
    (to_csv ((renderPass (storeDataset [] "data.csv" (read_csv f)) "data.csv"
        none none none).2)).header = f.header := by
  have hlook : lookupDataset (storeDataset [] "data.csv" (read_csv f))
      "data.csv" = some (read_csv f) := by
    simp [storeDataset, lookupDataset]
  have hni : invoiceDate ∉ (read_csv f).cols := by
    rw [cols_read_csv]; exact h
  have h2 : (renderPass (storeDataset [] "data.csv" (read_csv f)) "data.csv"
      none none none).2 = read_csv f := by
    simp [renderPass, hlook, hni, groupStage, sortStage]
  rw [h2]
  constructor
  · simp [to_csv, read_csv]
  · rw [show (to_csv (read_csv f)).header = (read_csv f).cols from rfl,
      cols_read_csv]

/-- C8 (witness): the Region/Sales example CSV keeps its three data
rows and its header through load and export. -/
theorem load_export_preserves_example :
    (to_csv ((renderPass (storeDataset [] "data.csv" (read_csv sampleCsv))
        "data.csv" none none none).2)).records.length = 3 :=
  (load_export_preserves sampleCsv (by decide)).1.trans (by decide)

end VisualizeData
